import Mathlib

/-!
Shallow embedding of `src/limacharlie/Spout.py` (the `Spout` streaming
client): decoded JSON values, the per-line processing of
`Spout._handleConnection`, the bounded `gevent.queue.Queue` semantics of
`put_nowait`, the outer reconnect loop, the drop-counter accessors and
`shutdown`, and the construction logic of `Spout.__init__`.
-/

namespace SpoutModel

/-- A decoded Python value as produced by `json.loads`: JSON null, booleans,
numbers (integers; the claims under study only exercise integer numbers),
strings, arrays and objects (dicts with string keys, insertion-ordered). -/
inductive JVal where
  | null
  | bool (b : Bool)
  | num (n : Int)
  | str (s : String)
  | arr (xs : List JVal)
  | obj (kvs : List (String × JVal))

/-- Python `v == "lit"` against a string literal, as in
`'dropped' == line['__trace']`: true exactly for that string, false for
every other value. -/
def eqStrLit (v : JVal) (lit : String) : Bool :=
  match v with
  | .str s => s = lit
  | _ => false

/-- Python exceptions that can arise in the body of the per-line `try` of
`Spout._handleConnection`: `json.loads` failure, `TypeError`, `KeyError`
(missing dict key), `ValueError`/`TypeError` from `int(...)`, and
`gevent.queue.Full` from `put_nowait`. The bare `except:` treats them all
alike, so only their presence matters. -/
inductive PyErr where
  | jsonDecode
  | typeError
  | keyError
  | valueError
  | queueFull
deriving BEq, DecidableEq, Repr

/-- First-match lookup in an ordered association list, the model of Python
dict indexing (dict keys are unique, so first match is the match). -/
def lookupKey (kvs : List (String × JVal)) (k : String) : Option JVal :=
  match kvs with
  | [] => none
  | (k', v) :: rest => if k' = k then some v else lookupKey rest k

/-- Substring test, modelling Python `needle in haystack` on strings
(for a nonempty needle, as used with the literal `'__trace'`). -/
def strContainsSub (hay needle : String) : Bool :=
  (hay.splitOn needle).length != 1

/-- Python `needle in v` for a string needle, as in `'__trace' in line`:
key membership for dicts, element membership for lists, substring test for
strings, and a `TypeError` for numbers, booleans and `None`. -/
def pyContains (needle : String) (v : JVal) : Except PyErr Bool :=
  match v with
  | .obj kvs => .ok (kvs.any (fun kv => kv.1 = needle))
  | .arr xs => .ok (xs.any (fun x => eqStrLit x needle))
  | .str s => .ok (strContainsSub s needle)
  | _ => .error .typeError

/-- Python `v[k]` for a string key `k`, as in `line['__trace']` and
`line['n']`: dict lookup (raising `KeyError` when absent), and a
`TypeError` for every non-dict value (string/list indices must be
integers; numbers are not subscriptable). -/
def subscr (v : JVal) (k : String) : Except PyErr JVal :=
  match v with
  | .obj kvs =>
    match lookupKey kvs k with
    | some w => .ok w
    | none => .error .keyError
  | _ => .error .typeError

/-- Python `int(v)`: identity on integers, `True ↦ 1`/`False ↦ 0` on
booleans, decimal parse (whitespace tolerated) on strings, and a
`ValueError`/`TypeError` (here `none`) on everything else. -/
def pyInt (v : JVal) : Option Int :=
  match v with
  | .num n => some n
  | .bool b => some (if b then 1 else 0)
  | .str s => s.trim.toInt?
  | _ => none

/-- An item held in `self.queue`: either the raw line (when `is_parse` is
false) or the decoded value (when `is_parse` is true). -/
inductive Entry where
  | raw (s : String)
  | parsed (v : JVal)

/-- One line yielded by `self._hConn.iter_lines(...)`, together with the
outcome of `json.loads` on it (`none` when `json.loads` raises); JSON
decoding itself is the external library's contract. -/
structure Line where
  raw : String
  decoded : Option JVal

/-- The mutable per-instance state touched by the reader loop and the
control surface: the bounded queue contents, its capacity `_max_buffer`,
the drop counter `_dropped` (a Python int, so an `Int`), the `_isStop`
flag, and the `_is_parse` configuration flag. -/
structure SpoutState where
  queue : List Entry
  maxBuffer : Nat
  dropped : Int
  isStop : Bool
  isParse : Bool

/-- Model of `gevent.queue.Queue(maxsize).put_nowait(e)`: appends when the queue is
below capacity and raises `Full` otherwise; a `maxsize` that is not
positive means an infinite queue, on which `put_nowait` always succeeds. -/
def put_nowait (cap : Nat) (q : List Entry) (e : Entry) : Except PyErr (List Entry) :=
  if cap = 0 ∨ q.length < cap then .ok (q ++ [e]) else .error .queueFull

/-- The body of the per-line `try` in `Spout._handleConnection`, lines
100–112 of the source: decode when parsing, filter `__trace` control
messages (adding `int(line['n'])` to the drop counter for a `dropped`
trace), otherwise `put_nowait` the decoded value (or the raw line when
parsing is disabled). Returns the new queue contents and the amount added
to `_dropped` by the trace branch, or the exception raised. -/
def lineBody (isParse : Bool) (cap : Nat) (q : List Entry) (line : Line) :
    Except PyErr (List Entry × Int) :=
  if isParse then
    match line.decoded with
    | none => .error .jsonDecode
    | some v =>
      match pyContains "__trace" v with
      | .error e => .error e
      | .ok true =>
        match subscr v "__trace" with
        | .error e => .error e
        | .ok tv =>
          if eqStrLit tv "dropped" then
            match subscr v "n" with
            | .error e => .error e
            | .ok nv =>
              match pyInt nv with
              | none => .error .valueError
              | some k => .ok (q, k)
          else .ok (q, 0)
      | .ok false =>
        match put_nowait cap q (.parsed v) with
        | .error e => .error e
        | .ok q' => .ok (q', 0)
  else
    match put_nowait cap q (.raw line.raw) with
    | .error e => .error e
    | .ok q' => .ok (q', 0)

/-- Processing of one line by the reader loop (the `try`/`except` at lines
99–114): on success the queue and drop counter are updated as `lineBody`
says; any exception is swallowed by the bare `except:` and `_dropped` is
incremented by 1 — the loop never aborts on a single line. -/
def processLine (st : SpoutState) (line : Line) : SpoutState :=
  match lineBody st.isParse st.maxBuffer st.queue line with
  | .ok (q, k) => { st with queue := q, dropped := st.dropped + k }
  | .error _ => { st with dropped := st.dropped + 1 }

/-- The `for line in self._hConn.iter_lines(...)` loop over a finite
prefix of the stream. -/
def processLines (st : SpoutState) (lines : List Line) : SpoutState :=
  lines.foldl processLine st

/-- Model of `Spout.getDropped`. -/
def getDropped (st : SpoutState) : Int :=
  st.dropped

/-- Model of `Spout.resetDroppedCounter`. -/
def resetDroppedCounter (st : SpoutState) : SpoutState :=
  { st with dropped := 0 }

/-- The state change of `Spout.shutdown` (line 79): set `_isStop`; closing
the connection and joining the thread pool have no effect on this state. -/
def shutdown (st : SpoutState) : SpoutState :=
  { st with isStop := true }

/-- An HTTP request issued by the instance: the registration `POST` of
`__init__` (line 68) or the reconnect `GET` of `_handleConnection`
(line 124), the latter carrying its `allow_redirects` argument. -/
inductive Request where
  | post (url : String)
  | get (url : String) (allowRedirects : Bool)

/-- The state relevant to the outer reconnect loop of
`_handleConnection` together with the control surface: the per-instance
state, the redirect URL `_finalSpoutUrl` recorded at construction, and
whether the reader greenlet has exited its `while` loop for good. -/
structure Sys where
  st : SpoutState
  finalSpoutUrl : String
  terminated : Bool

/-- An observable event in an interleaved execution: the reader receives
one line on the current connection; the current connection's line
iteration ends (stream end, server close or transport error — the outer
`try`/`except`/`finally` absorbs it either way); the consumer calls
`shutdown()`; the consumer calls `resetDroppedCounter()`. -/
inductive Event where
  | line (l : Line)
  | streamEnd
  | shutdownCall
  | resetCall

/-- One event of the interleaved execution, returning the next state and
the HTTP request issued, if any. A received line is handled by
`processLine`; when the line iteration ends the loop checks `_isStop`
(lines 123–127): if stopping it falls out of the `while` and terminates,
otherwise it reconnects with `GET _finalSpoutUrl, allow_redirects=False`.
`shutdown()` sets `_isStop`; `resetDroppedCounter()` zeroes `_dropped`.
After the greenlet has terminated, reader events are no-ops. -/
def step (s : Sys) (e : Event) : Sys × Option Request :=
  match e with
  | .line l =>
    if s.terminated then (s, none)
    else ({ s with st := processLine s.st l }, none)
  | .streamEnd =>
    if s.terminated then (s, none)
    else if s.st.isStop then ({ s with terminated := true }, none)
    else (s, some (.get s.finalSpoutUrl false))
  | .shutdownCall => ({ s with st := shutdown s.st }, none)
  | .resetCall => ({ s with st := resetDroppedCounter s.st }, none)

/-- Run a sequence of events, collecting every HTTP request issued. -/
def run (s : Sys) (es : List Event) : Sys × List Request :=
  match es with
  | [] => (s, [])
  | e :: rest =>
    let (s', r) := step s e
    let (s'', rs) := run s' rest
    (s'', r.toList ++ rs)

/-- A construction-time failure of `Spout.__init__`: the explicit
`LcApiException` for an invalid `data_type` (line 46), or the exception
propagating from `self._hConn.history[0].headers['Location']` (line 73)
when the registration `POST` did not yield a redirect — the spec's
`ConfigurationError` and `ConnectionSetupError` respectively. -/
inductive InitError where
  | invalidDataType (t : String)
  | connectionSetup

/-- What `__init__` observes of the registration `POST`'s response: the
`Location` header values of the redirect history (one entry per redirect
followed; empty when the server did not redirect). -/
structure PostResponse where
  historyLocations : List (Option String)

/-- The outcome of `Spout.__init__`: the error raised, if any; the
requests issued on the network; whether the reader greenlet was spawned
(line 74); and the recorded `_finalSpoutUrl`. -/
structure InitResult where
  outcome : Except InitError SpoutState
  requests : List Request
  spawned : Bool
  finalSpoutUrl : Option String

/-- Model of `Spout.__init__` (lines 32–74): record the parameters, reject a
`data_type` outside `('event', 'detect', 'audit')` before any network
activity, create the queue, issue the registration `POST`, read the
`Location` header off `history[0]` (an `IndexError`/`KeyError` — fatal —
when the response carries no redirect), and only then spawn the reader
greenlet. -/
def spoutInit (oid : String) (data_type : String) (is_parse : Bool)
    (max_buffer : Nat) (resp : PostResponse) : InitResult :=
  if data_type = "event" ∨ data_type = "detect" ∨ data_type = "audit" then
    let postReq : Request := .post ("https://output.limacharlie.io/output/" ++ oid)
    match resp.historyLocations with
    | [] =>
      { outcome := .error .connectionSetup, requests := [postReq],
        spawned := false, finalSpoutUrl := none }
    | loc0 :: _ =>
      match loc0 with
      | none =>
        { outcome := .error .connectionSetup, requests := [postReq],
          spawned := false, finalSpoutUrl := none }
      | some url =>
        { outcome := .ok { queue := [], maxBuffer := max_buffer, dropped := 0,
                           isStop := false, isParse := is_parse },
          requests := [postReq], spawned := true, finalSpoutUrl := some url }
  else
    { outcome := .error (.invalidDataType data_type), requests := [],
      spawned := false, finalSpoutUrl := none }

/-- A line the reader loop would deliver into the queue: with parsing
enabled, one that decodes to a value not containing the `__trace` key;
with parsing disabled, every line. -/
def deliverable (isParse : Bool) (l : Line) : Prop :=
  if isParse then ∃ v, l.decoded = some v ∧ pyContains "__trace" v = .ok false
  else True

/-- The queue entry a deliverable line turns into. -/
def entryOf (isParse : Bool) (l : Line) : Entry :=
  if isParse then .parsed (l.decoded.getD .null) else .raw l.raw

/-- Whether an emitted request is the registration `POST`. -/
def emitsPost (o : Option Request) : Bool :=
  match o with
  | some (.post _) => true
  | _ => false

/-- Whether a line is, with parsing enabled, a `dropped` trace message
whose `n` field converts to a negative integer — the only kind of line
whose processing can decrease the drop counter. -/
def negDroppedTraceB (isParse : Bool) (l : Line) : Bool :=
  isParse &&
    match l.decoded with
    | none => false
    | some v =>
      match pyContains "__trace" v with
      | .ok true =>
        match subscr v "__trace" with
        | .ok tv =>
          eqStrLit tv "dropped" &&
            (match subscr v "n" with
             | .ok nv =>
               match pyInt nv with
               | some k => decide (k < 0)
               | none => false
             | .error _ => false)
        | .error _ => false
      | _ => false

/-- A dict key that can be looked up is found by the `in` membership scan. -/
lemma lookupKey_any {kvs : List (String × JVal)} {k : String} {w : JVal}
    (h : lookupKey kvs k = some w) : (kvs.any fun kv => kv.1 = k) = true := by
  induction kvs with
  | nil => simp [lookupKey] at h
  | cons kv rest ih =>
    rw [lookupKey] at h
    by_cases hk : kv.1 = k
    · simp [hk]
    · rw [if_neg hk] at h
      simp [hk, ih h]

/-- Processing one line never reads the drop counter: shifting `_dropped`
before the line shifts the result by the same amount and changes nothing
else. -/
lemma processLine_shift (st : SpoutState) (c : Int) (l : Line) :
    processLine { st with dropped := st.dropped + c } l =
      { processLine st l with dropped := (processLine st l).dropped + c } := by
  unfold processLine
  cases hb : lineBody st.isParse st.maxBuffer st.queue l with
  | ok p => simp [hb]; omega
  | error e => simp [hb]; omega

/-- Processing a sequence of lines never reads the drop counter either. -/
lemma processLines_shift (ls : List Line) (st : SpoutState) (c : Int) :
    processLines { st with dropped := st.dropped + c } ls =
      { processLines st ls with dropped := (processLines st ls).dropped + c } := by
  induction ls generalizing st with
  | nil => rfl
  | cons l rest ih =>
    show processLines (processLine { st with dropped := st.dropped + c } l) rest = _
    rw [processLine_shift]
    exact ih (processLine st l)

/-- Processing one line touches only the queue and the drop counter. -/
lemma processLine_flags (st : SpoutState) (l : Line) :
    (processLine st l).isStop = st.isStop ∧ (processLine st l).isParse = st.isParse ∧
    (processLine st l).maxBuffer = st.maxBuffer := by
  unfold processLine
  cases hb : lineBody st.isParse st.maxBuffer st.queue l with
  | ok p => simp [hb]
  | error e => simp [hb]

/-- A deliverable line, processed with room in the queue (or an infinite
queue), is appended to the queue and nothing else changes. -/
lemma processLine_deliverable (st : SpoutState) (l : Line)
    (hdel : deliverable st.isParse l)
    (hroom : st.maxBuffer = 0 ∨ st.queue.length < st.maxBuffer) :
    processLine st l = { st with queue := st.queue ++ [entryOf st.isParse l] } := by
  unfold processLine lineBody
  unfold deliverable at hdel
  cases hp : st.isParse with
  | false =>
    simp only [hp, Bool.false_eq_true, if_false, entryOf, put_nowait, if_pos hroom,
      add_zero]
  | true =>
    rw [hp] at hdel
    simp only [if_true] at hdel
    obtain ⟨v, hv, hc⟩ := hdel
    simp only [hp, if_true, hv, hc, put_nowait, if_pos hroom, entryOf, hv,
      Option.getD_some, add_zero]

/-- Deliverable lines that all fit are appended to the queue in order. -/
lemma processLines_append_all (ls : List Line) (st : SpoutState)
    (hdel : ∀ l ∈ ls, deliverable st.isParse l)
    (hroom : st.maxBuffer = 0 ∨ st.queue.length + ls.length ≤ st.maxBuffer) :
    processLines st ls = { st with queue := st.queue ++ ls.map (entryOf st.isParse) } := by
  induction ls generalizing st with
  | nil => simp [processLines]
  | cons l rest ih =>
    have hroom1 : st.maxBuffer = 0 ∨ st.queue.length < st.maxBuffer := by
      rcases hroom with h | h
      · exact Or.inl h
      · right; simp at h; omega
    have hstep := processLine_deliverable st l (hdel l (by simp)) hroom1
    show processLines (processLine st l) rest = _
    rw [hstep]
    rw [ih { st with queue := st.queue ++ [entryOf st.isParse l] }
      (fun l' hl' => hdel l' (by simp [hl']))
      (by rcases hroom with h | h
          · exact Or.inl h
          · right; simp at h ⊢; omega)]
    simp

/-- A line whose per-line processing raises costs exactly one drop and
has no other effect, and the rest of the stream is processed exactly as
it would have been without it. -/
lemma errorLine_contained (st : SpoutState) (l : Line) (rest : List Line)
    (e : PyErr)
    (he : lineBody st.isParse st.maxBuffer st.queue l = .error e) :
    processLine st l = { st with dropped := st.dropped + 1 } ∧
    processLines st (l :: rest) =
      { processLines st rest with dropped := (processLines st rest).dropped + 1 } := by
  have h1 : processLine st l = { st with dropped := st.dropped + 1 } := by
    unfold processLine; rw [he]
  refine ⟨h1, ?_⟩
  show processLines (processLine st l) rest = _
  rw [h1]
  exact processLines_shift rest st 1

/-- C1 (counterexample): with `max_buffer = 0` the gevent queue is
infinite, so a state whose queue holds exactly `max_buffer` items (the
empty queue) accepts one more deliverable line — it is enqueued and the
drop counter stays unchanged, contrary to the claim's universal
quantification over states. -/
theorem spout_c1_counterexample :
    (⟨[], 0, 0, false, false⟩ : SpoutState).queue.length =
      (⟨[], 0, 0, false, false⟩ : SpoutState).maxBuffer ∧
    processLine ⟨[], 0, 0, false, false⟩ ⟨"x", none⟩ =
      ⟨[Entry.raw "x"], 0, 0, false, false⟩ :=
  ⟨rfl, rfl⟩

/-- C1 (amended): for a positive capacity `max_buffer`, in any state whose
queue already holds `max_buffer` items, processing one more deliverable
line makes the non-blocking `put_nowait` fail immediately with `Full`,
which the per-line handler counts: the drop counter goes up by exactly 1
and the queue contents are unchanged. -/
theorem spout_c1_full_queue_drop (st : SpoutState) (l : Line)
    (hcap : 1 ≤ st.maxBuffer) (hfull : st.queue.length = st.maxBuffer)
    (hdel : deliverable st.isParse l) :
    processLine st l = { st with dropped := st.dropped + 1 } := by
  have hno : ¬ (st.maxBuffer = 0 ∨ st.queue.length < st.maxBuffer) := by omega
  unfold processLine lineBody
  unfold deliverable at hdel
  cases hp : st.isParse with
  | false =>
    simp only [hp, Bool.false_eq_true, if_false, put_nowait, if_neg hno]
  | true =>
    rw [hp] at hdel
    simp only [if_true] at hdel
    obtain ⟨v, hv, hc⟩ := hdel
    simp only [hp, if_true, hv, hc, put_nowait, if_neg hno]

/-- C1 witness: a full one-slot queue rejects a raw line and counts it. -/
theorem spout_c1_witness :
    processLine ⟨[Entry.raw "a"], 1, 7, false, false⟩ ⟨"x", none⟩ =
      { (⟨[Entry.raw "a"], 1, 7, false, false⟩ : SpoutState) with
        dropped := (⟨[Entry.raw "a"], 1, 7, false, false⟩ : SpoutState).dropped + 1 } :=
  spout_c1_full_queue_drop ⟨[Entry.raw "a"], 1, 7, false, false⟩ ⟨"x", none⟩
    (by decide) rfl (by simp [deliverable])

/-- C2: a line decoding to an object whose `__trace` key holds `dropped`
and whose `n` key holds the integer `n` adds exactly `n` to the drop
counter and is never enqueued — the state change is precisely
`dropped := dropped + n`. -/
theorem spout_c2_server_dropped_trace (st : SpoutState)
    (kvs : List (String × JVal)) (l : Line) (n : Int)
    (hp : st.isParse = true) (hd : l.decoded = some (.obj kvs))
    (ht : lookupKey kvs "__trace" = some (.str "dropped"))
    (hn : lookupKey kvs "n" = some (.num n)) :
    processLine st l = { st with dropped := st.dropped + n } := by
  unfold processLine lineBody
  simp only [hp, if_true, hd, pyContains, lookupKey_any ht, subscr, ht, hn,
    eqStrLit, pyInt]
  simp

/-- C2 witness: the trace object with `n = 5` adds 5 and enqueues
nothing. -/
theorem spout_c2_witness :
    processLine ⟨[], 4, 2, false, true⟩
      ⟨"", some (.obj [("__trace", .str "dropped"), ("n", .num 5)])⟩ =
      { (⟨[], 4, 2, false, true⟩ : SpoutState) with
        dropped := (⟨[], 4, 2, false, true⟩ : SpoutState).dropped + 5 } :=
  spout_c2_server_dropped_trace ⟨[], 4, 2, false, true⟩
    [("__trace", .str "dropped"), ("n", .num 5)] _ 5 rfl rfl (by simp [lookupKey])
    (by simp [lookupKey])

/-- C3: a line that fails JSON decoding with parsing enabled — and, more
generally, any line whose per-line processing raises — increments the
drop counter by exactly 1, enqueues nothing, and does not end the read
loop: the remainder of the stream is processed exactly as it would have
been without the bad line, the final state differing only by the one
extra drop. -/
theorem spout_c3_bad_line_contained (st : SpoutState) (l : Line)
    (rest : List Line)
    (h : (st.isParse = true ∧ l.decoded = none) ∨
         ∃ e, lineBody st.isParse st.maxBuffer st.queue l = .error e) :
    processLine st l = { st with dropped := st.dropped + 1 } ∧
    processLines st (l :: rest) =
      { processLines st rest with dropped := (processLines st rest).dropped + 1 } := by
  have herr : ∃ e, lineBody st.isParse st.maxBuffer st.queue l = .error e := by
    rcases h with ⟨hp, hd⟩ | h
    · exact ⟨.jsonDecode, by simp [lineBody, hp, hd]⟩
    · exact h
  obtain ⟨e, he⟩ := herr
  exact errorLine_contained st l rest e he

/-- C3 witness: a malformed line followed by a valid one costs one drop
and the valid line is still delivered. -/
theorem spout_c3_witness :
    processLine ⟨[], 4, 0, false, true⟩ ⟨"x", none⟩ =
      { (⟨[], 4, 0, false, true⟩ : SpoutState) with
        dropped := (⟨[], 4, 0, false, true⟩ : SpoutState).dropped + 1 } ∧
    processLines ⟨[], 4, 0, false, true⟩
      [⟨"x", none⟩, ⟨"", some (.obj [("k", .num 1)])⟩] =
      { processLines ⟨[], 4, 0, false, true⟩ [⟨"", some (.obj [("k", .num 1)])⟩] with
        dropped :=
          (processLines ⟨[], 4, 0, false, true⟩
            [⟨"", some (.obj [("k", .num 1)])⟩]).dropped + 1 } :=
  spout_c3_bad_line_contained ⟨[], 4, 0, false, true⟩ ⟨"x", none⟩
    [⟨"", some (.obj [("k", .num 1)])⟩] (Or.inl ⟨rfl, rfl⟩)

/-- C4: starting from an empty queue, a sequence of deliverable lines of
length at most the capacity ends with the queue holding exactly the
corresponding entries, in stream order. -/
theorem spout_c4_fifo_order (st : SpoutState) (ls : List Line)
    (hq : st.queue = []) (hdel : ∀ l ∈ ls, deliverable st.isParse l)
    (hcap : ls.length ≤ st.maxBuffer) :
    (processLines st ls).queue = ls.map (entryOf st.isParse) := by
  rw [processLines_append_all ls st hdel
    (Or.inr (by rw [hq]; simpa using hcap))]
  simp [hq]

/-- C4 witness: two decodable non-trace lines land in the queue in stream
order. -/
theorem spout_c4_witness :
    (processLines ⟨[], 4, 0, false, true⟩
      [⟨"", some (.obj [("a", .num 1)])⟩, ⟨"", some (.obj [("b", .num 2)])⟩]).queue =
      [Entry.parsed (.obj [("a", .num 1)]), Entry.parsed (.obj [("b", .num 2)])] :=
  spout_c4_fifo_order ⟨[], 4, 0, false, true⟩
    [⟨"", some (.obj [("a", .num 1)])⟩, ⟨"", some (.obj [("b", .num 2)])⟩] rfl
    (by intro l hl
        simp only [List.mem_cons, List.mem_singleton, List.not_mem_nil, or_false] at hl
        rcases hl with hl | hl <;> subst hl <;> exact ⟨_, rfl, rfl⟩)
    (by decide)

/-- C5: when the line iteration of a live (not terminated) connection ends
while the stopping flag is clear, the loop reconnects with a plain `GET`
to the redirect URL recorded at construction, with redirects disabled;
moreover no event ever changes the stored URL, and no event ever emits
the registration `POST` again. -/
theorem spout_c5_reconnect_recorded_url (s : Sys) (e : Event)
    (hterm : s.terminated = false) (hstop : s.st.isStop = false) :
    step s .streamEnd = (s, some (.get s.finalSpoutUrl false)) ∧
    (step s e).1.finalSpoutUrl = s.finalSpoutUrl ∧
    emitsPost (step s e).2 = false := by
  refine ⟨by simp [step, hterm, hstop], ?_, ?_⟩
  · cases e <;> simp [step, hterm, hstop]
  · cases e <;> simp [step, emitsPost, hterm, hstop]

/-- C5 witness: a concrete live system reconnects to its recorded URL. -/
theorem spout_c5_witness :
    step ⟨⟨[], 4, 0, false, true⟩, "https://stream.example/abc", false⟩ .streamEnd =
      (⟨⟨[], 4, 0, false, true⟩, "https://stream.example/abc", false⟩,
        some (.get "https://stream.example/abc" false)) ∧
    (step ⟨⟨[], 4, 0, false, true⟩, "https://stream.example/abc", false⟩
        .streamEnd).1.finalSpoutUrl = "https://stream.example/abc" ∧
    emitsPost (step ⟨⟨[], 4, 0, false, true⟩, "https://stream.example/abc", false⟩
        .streamEnd).2 = false :=
  spout_c5_reconnect_recorded_url
    ⟨⟨[], 4, 0, false, true⟩, "https://stream.example/abc", false⟩ .streamEnd rfl rfl

/-- Once the stopping flag is set, any further events keep it set and emit
no HTTP request at all. -/
lemma run_stopped (es : List Event) (s : Sys) (hstop : s.st.isStop = true) :
    (run s es).1.st.isStop = true ∧ (run s es).2 = [] := by
  induction es generalizing s with
  | nil => exact ⟨hstop, rfl⟩
  | cons e rest ih =>
    have hstep : (step s e).1.st.isStop = true ∧ (step s e).2 = none := by
      cases e with
      | line l =>
        by_cases ht : s.terminated <;>
          simp [step, ht, (processLine_flags s.st l).1, hstop]
      | streamEnd =>
        by_cases ht : s.terminated <;> simp [step, ht, hstop]
      | shutdownCall => simp [step, shutdown]
      | resetCall => simp [step, resetDroppedCounter, hstop]
    show ((run (step s e).1 rest).1.st.isStop = true ∧
      (step s e).2.toList ++ (run (step s e).1 rest).2 = [])
    have hrec := ih (step s e).1 hstep.1
    simp [hstep.2, hrec.1, hrec.2]

/-- C6: `shutdown()` sets the stopping flag; from any state in which the
flag is set it stays set under every further event sequence (the
transition is one-way), no HTTP request — in particular no reconnect
`GET` — is ever issued again, and the next end of line iteration makes
the reader loop terminate instead of re-entering a connection. -/
theorem spout_c6_shutdown_no_reconnect (s : Sys) (es : List Event)
    (hstop : s.st.isStop = true) :
    (step s .shutdownCall).1.st.isStop = true ∧
    (run s es).1.st.isStop = true ∧
    (run s es).2 = [] ∧
    (step s .streamEnd).1.terminated = true := by
  refine ⟨by simp [step, shutdown], (run_stopped es s hstop).1,
    (run_stopped es s hstop).2, ?_⟩
  by_cases ht : s.terminated <;> simp [step, ht, hstop]

/-- C6 witness: a stopped system stays stopped across a shutdown call, a
received line and a stream end, emitting no request, and terminates. -/
theorem spout_c6_witness :
    (step ⟨⟨[], 4, 0, true, true⟩, "u", false⟩ .shutdownCall).1.st.isStop = true ∧
    (run ⟨⟨[], 4, 0, true, true⟩, "u", false⟩
      [.line ⟨"x", none⟩, .streamEnd, .streamEnd]).1.st.isStop = true ∧
    (run ⟨⟨[], 4, 0, true, true⟩, "u", false⟩
      [.line ⟨"x", none⟩, .streamEnd, .streamEnd]).2 = [] ∧
    (step ⟨⟨[], 4, 0, true, true⟩, "u", false⟩ .streamEnd).1.terminated = true :=
  spout_c6_shutdown_no_reconnect ⟨⟨[], 4, 0, true, true⟩, "u", false⟩
    [.line ⟨"x", none⟩, .streamEnd, .streamEnd] rfl

/-- A successful per-line body adds a negative amount to the drop counter
only on a `dropped` trace message with a negative `n`. -/
lemma lineBody_nonneg (isParse : Bool) (cap : Nat) (q : List Entry) (l : Line)
    (q' : List Entry) (k : Int)
    (hb : lineBody isParse cap q l = .ok (q', k))
    (hneg : negDroppedTraceB isParse l = false) : 0 ≤ k := by
  unfold lineBody at hb
  unfold negDroppedTraceB at hneg
  cases isParse with
  | false =>
    cases hput : put_nowait cap q (.raw l.raw) with
    | ok q2 => rw [hput] at hb; injection hb with h; injection h; omega
    | error e => rw [hput] at hb; exact absurd hb (by simp)
  | true =>
    simp only [Bool.true_and] at hneg
    cases hd : l.decoded with
    | none => rw [hd] at hb; exact absurd hb (by simp)
    | some v =>
      simp only [hd] at hb hneg
      cases hc : pyContains "__trace" v with
      | error e => rw [hc] at hb; exact absurd hb (by simp)
      | ok b =>
        simp only [hc] at hb hneg
        cases b with
        | false =>
          cases hput : put_nowait cap q (.parsed v) with
          | ok q2 => rw [hput] at hb; injection hb with h; injection h; omega
          | error e => rw [hput] at hb; exact absurd hb (by simp)
        | true =>
          cases hsub : subscr v "__trace" with
          | error e => rw [hsub] at hb; exact absurd hb (by simp)
          | ok tv =>
            simp only [hsub] at hb hneg
            cases he : eqStrLit tv "dropped" with
            | false =>
              simp only [he, Bool.false_eq_true, if_false] at hb
              injection hb with h; injection h; omega
            | true =>
              simp only [he, if_true, Bool.true_and] at hb hneg
              cases hn : subscr v "n" with
              | error e => rw [hn] at hb; exact absurd hb (by simp)
              | ok nv =>
                simp only [hn] at hb hneg
                cases hi : pyInt nv with
                | none => rw [hi] at hb; exact absurd hb (by simp)
                | some k2 =>
                  simp only [hi] at hb hneg
                  simp only [decide_eq_false_iff_not, not_lt] at hneg
                  injection hb with h
                  injection h with h1 h2
                  omega

/-- C7 (counterexample): a server trace message carrying a negative `n`
decreases the drop counter — a reader-loop step is not monotone for
arbitrary server-reported integers. -/
theorem spout_c7_counterexample :
    (processLine ⟨[], 4, 0, false, true⟩
      ⟨"", some (.obj [("__trace", .str "dropped"), ("n", .num (-5))])⟩).dropped <
      (⟨[], 4, 0, false, true⟩ : SpoutState).dropped := by
  decide

/-- C7 (amended): the drop counter is monotone non-decreasing under every
reader-loop step, except on a `dropped` trace message whose
server-reported `n` converts to a negative integer; and
`resetDroppedCounter()` brings `getDropped()` back to exactly 0 whatever
the accumulated value was. -/
theorem spout_c7_monotone_unless_negative_trace (st : SpoutState) (l : Line)
    (h : negDroppedTraceB st.isParse l = false) :
    st.dropped ≤ (processLine st l).dropped ∧
    getDropped (resetDroppedCounter st) = 0 := by
  refine ⟨?_, rfl⟩
  unfold processLine
  cases hb : lineBody st.isParse st.maxBuffer st.queue l with
  | ok p =>
    obtain ⟨q', k⟩ := p
    have hk := lineBody_nonneg st.isParse st.maxBuffer st.queue l q' k hb h
    simp only []
    omega
  | error e =>
    simp only []
    omega

/-- C7 witness: a full queue rejection only increases the counter, and a
reset zeroes it. -/
theorem spout_c7_witness :
    (⟨[Entry.raw "a"], 1, 7, false, false⟩ : SpoutState).dropped ≤
      (processLine ⟨[Entry.raw "a"], 1, 7, false, false⟩ ⟨"x", none⟩).dropped ∧
    getDropped (resetDroppedCounter ⟨[Entry.raw "a"], 1, 7, false, false⟩) = 0 :=
  spout_c7_monotone_unless_negative_trace ⟨[Entry.raw "a"], 1, 7, false, false⟩
    ⟨"x", none⟩ rfl

/-- C8: with a valid data type, when the registration `POST` yields no
redirect (empty history, or a first history response without a
`Location` header), construction fails with the connection-setup error
and the reader greenlet is never spawned. -/
theorem spout_c8_no_redirect_fatal (oid dt : String) (is_parse : Bool)
    (mb : Nat) (resp : PostResponse)
    (hdt : dt = "event" ∨ dt = "detect" ∨ dt = "audit")
    (hnored : resp.historyLocations = [] ∨
      ∃ rest, resp.historyLocations = none :: rest) :
    (spoutInit oid dt is_parse mb resp).outcome = .error .connectionSetup ∧
    (spoutInit oid dt is_parse mb resp).spawned = false := by
  unfold spoutInit
  rw [if_pos hdt]
  rcases hnored with h | ⟨rest, h⟩ <;> simp [h]

/-- C8 witness: an empty redirect history is fatal and spawns nothing. -/
theorem spout_c8_witness :
    (spoutInit "o" "event" true 1024 ⟨[]⟩).outcome = .error .connectionSetup ∧
    (spoutInit "o" "event" true 1024 ⟨[]⟩).spawned = false :=
  spout_c8_no_redirect_fatal "o" "event" true 1024 ⟨[]⟩ (Or.inl rfl) (Or.inl rfl)

/-- C9: a data type outside `event`, `detect`, `audit` is rejected before
any network activity: the configuration error is raised, the request list
is empty (no `POST`, no connection) and no greenlet is spawned. -/
theorem spout_c9_invalid_data_type (oid dt : String) (is_parse : Bool)
    (mb : Nat) (resp : PostResponse)
    (hdt : ¬ (dt = "event" ∨ dt = "detect" ∨ dt = "audit")) :
    spoutInit oid dt is_parse mb resp =
      { outcome := .error (.invalidDataType dt), requests := [],
        spawned := false, finalSpoutUrl := none } := by
  unfold spoutInit
  rw [if_neg hdt]

/-- C9 witness: the data type string telemetry is rejected with no
network activity. -/
theorem spout_c9_witness :
    spoutInit "o" "telemetry" true 1024 ⟨[some "u"]⟩ =
      { outcome := .error (.invalidDataType "telemetry"), requests := [],
        spawned := false, finalSpoutUrl := none } :=
  spout_c9_invalid_data_type "o" "telemetry" true 1024 ⟨[some "u"]⟩ (by decide)

/-- C10: a `dropped` trace object whose `n` field is missing or not
convertible to an integer raises inside the per-line handler, so the
drop counter goes up by exactly 1, nothing is enqueued, and the rest of
the stream is processed as if the line had not been there. -/
theorem spout_c10_malformed_trace (st : SpoutState)
    (kvs : List (String × JVal)) (l : Line) (rest : List Line)
    (hp : st.isParse = true) (hd : l.decoded = some (.obj kvs))
    (ht : lookupKey kvs "__trace" = some (.str "dropped"))
    (hn : lookupKey kvs "n" = none ∨
      ∃ nv, lookupKey kvs "n" = some nv ∧ pyInt nv = none) :
    processLine st l = { st with dropped := st.dropped + 1 } ∧
    processLines st (l :: rest) =
      { processLines st rest with dropped := (processLines st rest).dropped + 1 } := by
  have herr : ∃ e, lineBody st.isParse st.maxBuffer st.queue l = .error e := by
    rcases hn with h | ⟨nv, hnv, hi⟩
    · exact ⟨.keyError, by
        simp [lineBody, hp, hd, pyContains, lookupKey_any ht, subscr, ht, h,
          eqStrLit]⟩
    · exact ⟨.valueError, by
        simp [lineBody, hp, hd, pyContains, lookupKey_any ht, subscr, ht, hnv,
          hi, eqStrLit]⟩
  obtain ⟨e, he⟩ := herr
  exact errorLine_contained st l rest e he

/-- C10 witness: a `dropped` trace with no `n` key costs one drop and the
following valid line is still delivered. -/
theorem spout_c10_witness :
    processLine ⟨[], 4, 0, false, true⟩
      ⟨"", some (.obj [("__trace", .str "dropped")])⟩ =
      { (⟨[], 4, 0, false, true⟩ : SpoutState) with
        dropped := (⟨[], 4, 0, false, true⟩ : SpoutState).dropped + 1 } ∧
    processLines ⟨[], 4, 0, false, true⟩
      [⟨"", some (.obj [("__trace", .str "dropped")])⟩,
        ⟨"", some (.obj [("k", .num 1)])⟩] =
      { processLines ⟨[], 4, 0, false, true⟩ [⟨"", some (.obj [("k", .num 1)])⟩] with
        dropped :=
          (processLines ⟨[], 4, 0, false, true⟩
            [⟨"", some (.obj [("k", .num 1)])⟩]).dropped + 1 } :=
  spout_c10_malformed_trace ⟨[], 4, 0, false, true⟩ [("__trace", .str "dropped")]
    ⟨"", some (.obj [("__trace", .str "dropped")])⟩
    [⟨"", some (.obj [("k", .num 1)])⟩] rfl rfl (by simp [lookupKey])
    (Or.inl (by simp [lookupKey]))

end SpoutModel
